import Mathlib

/-!
Verification development for the image-provider HTTP image server.

The embedding below is a shallow model of the compiled crate: main.rs uses
the library root lib.rs (which declares only the config module), so lib.rs
and config.rs are the authoritative sources.  The file images.rs in the
repository is not referenced by any module declaration and is therefore
dead code; where its behaviour differs from lib.rs (permissive query
parsing, a capacity guard on the cache layer, an unclamped dpr), the
behaviour of lib.rs is the one modelled.

Machine integers are modelled as Nat with explicit reduction modulo 2 ^ 32
where Rust release-mode wrapping applies.  The f32 arithmetic used by
get_output_size is modelled exactly: every IEEE-754 binary32 operation is
correctly rounded, so each operation is embedded as exact rational
arithmetic followed by rounding to the nearest representable binary32
value (ties to even), with overflow to infinity and the saturating
float-to-integer cast semantics of Rust.  Only the nonnegative fragment of
f32 is modelled, which covers every value get_output_size can produce from
its unsigned inputs.
-/

set_option maxRecDepth 1000000

/-- Result type of the axum handlers: an HTTP status code and a message. -/
abbrev Err := Nat × String

/-! ### Character-level string utilities

Lean's String.splitOn and String.toLower do not reduce in the kernel, so
the embedding works on the underlying character lists with structurally
recursive helpers. -/

/-- ASCII lower-casing of one character, returned as a code point. -/
def lowerCode (c : Char) : Nat :=
  if 65 ≤ c.toNat ∧ c.toNat ≤ 90 then c.toNat + 32 else c.toNat

/-- Case-insensitive comparison of two strings (ASCII case folding), as done
by the unicase wrapper inside mime_guess. -/
def strIEq (a b : String) : Bool :=
  a.data.map lowerCode == b.data.map lowerCode

/-- Split a character list on the dot character; mirrors splitting a file
name into stem and extension parts. -/
def splitOnDot (cs : List Char) : List (List Char) :=
  cs.foldr
    (fun c acc =>
      if c == '.' then [] :: acc
      else
        match acc with
        | [] => [[c]]
        | a :: rest => (c :: a) :: rest)
    [[]]

/-- Extension of a file name, following Rust's Path::extension: the part
after the last dot, none when there is no dot or when the only dot is the
leading character of the file name. -/
def extOf (filename : String) : Option String :=
  match splitOnDot filename.data with
  | [] => none
  | [_] => none
  | [[], _] => none
  | ps =>
    match ps.getLast? with
    | some cs => some (String.mk cs)
    | none => none

/-- Parse of an unsigned 32-bit decimal integer, following Rust's
u32::from_str as used by serde_urlencoded: an optional leading plus sign,
one or more ASCII digits, and an overflow check. -/
def parseU32 (cs : List Char) : Option Nat :=
  let ds := match cs with
    | '+' :: rest => rest
    | cs => cs
  if ds = [] then none
  else if ds.all (fun c => c.isDigit) then
    let n := ds.foldl (fun acc c => acc * 10 + (c.toNat - 48)) 0
    if n < 2 ^ 32 then some n else none
  else none

/-! ### Image formats and MIME detection

ImageFormat models the image crate's format enum restricted to the
variants reachable through the mime_guess tables for common raster
extensions.  mimeFromExt models the composition of mime_guess::from_ext
with ImageFormat::from_mime_type used by find_image_mime in lib.rs. -/

/-- The image formats the server can detect from extensions or the output
query parameter. -/
inductive ImageFormat where
  | png
  | jpeg
  | gif
  | webp
  | ico
  | bmp
  | tiff
  | avif
deriving DecidableEq

/-- First image format guessed for an extension; models find_image_mime
applied to MimeGuess::from_ext (extension matching is case-insensitive). -/
def mimeFromExt (ext : String) : Option ImageFormat :=
  if strIEq ext "png" then some ImageFormat.png
  else if strIEq ext "jpg" ∨ strIEq ext "jpeg" then some ImageFormat.jpeg
  else if strIEq ext "gif" then some ImageFormat.gif
  else if strIEq ext "webp" then some ImageFormat.webp
  else if strIEq ext "ico" then some ImageFormat.ico
  else if strIEq ext "bmp" then some ImageFormat.bmp
  else if strIEq ext "tif" ∨ strIEq ext "tiff" then some ImageFormat.tiff
  else if strIEq ext "avif" then some ImageFormat.avif
  else none

/-! ### The query structure of lib.rs -/

/-- The typed query of lib.rs: every field optional, numeric fields u32.
This is the raw deserialized form; it is also the second component of the
cache key. -/
structure ImageQuery where
  output : Option String
  dpr : Option Nat
  w : Option Nat
  h : Option Nat
deriving DecidableEq

/-- Rust's clamp on unsigned integers. -/
def rustClamp (x lo hi : Nat) : Nat :=
  if x < lo then lo else if hi < x then hi else x

/-- The dpr accessor of ImageQuery in lib.rs: default 1, clamped to the
interval from 1 to 3. -/
def ImageQuery.dprVal (q : ImageQuery) : Nat :=
  rustClamp (q.dpr.getD 1) 1 3

/-- The output accessor of ImageQuery in lib.rs: resolve the output
extension through the mime tables, failing with 400 when unknown. -/
def ImageQuery.outputFormat (q : ImageQuery) : Except Err (Option ImageFormat) :=
  match q.output with
  | none => Except.ok none
  | some ext =>
    match mimeFromExt ext with
    | some f => Except.ok (some f)
    | none => Except.error (400, "Unsupported output format: " ++ ext)

/-! ### Query-string deserialization

lib.rs extracts Query of ImageQuery, so serde_urlencoded drives the
derived Deserialize implementation: fields are filled in pair order,
duplicate fields are an error, unknown keys are ignored, and a numeric
field whose value does not parse as u32 makes the whole deserialization
fail, which axum surfaces as a 400 rejection before the handler runs. -/

/-- One visitor step of the derived Deserialize implementation for a single
key-value pair. -/
def deserStep (acc : ImageQuery) (kv : String × String) : Except String ImageQuery :=
  if kv.1 = "output" then
    match acc.output with
    | some _ => Except.error "duplicate field output"
    | none => Except.ok { acc with output := some kv.2 }
  else if kv.1 = "dpr" then
    match acc.dpr with
    | some _ => Except.error "duplicate field dpr"
    | none =>
      match parseU32 kv.2.data with
      | some n => Except.ok { acc with dpr := some n }
      | none => Except.error "invalid u32 value for dpr"
  else if kv.1 = "w" then
    match acc.w with
    | some _ => Except.error "duplicate field w"
    | none =>
      match parseU32 kv.2.data with
      | some n => Except.ok { acc with w := some n }
      | none => Except.error "invalid u32 value for w"
  else if kv.1 = "h" then
    match acc.h with
    | some _ => Except.error "duplicate field h"
    | none =>
      match parseU32 kv.2.data with
      | some n => Except.ok { acc with h := some n }
      | none => Except.error "invalid u32 value for h"
  else Except.ok acc

/-- Fold of the visitor over the remaining pairs, stopping at the first
error as the serde map visitor does. -/
def deserFields (acc : ImageQuery) : List (String × String) → Except String ImageQuery
  | [] => Except.ok acc
  | kv :: rest =>
    match deserStep acc kv with
    | Except.error e => Except.error e
    | Except.ok acc2 => deserFields acc2 rest

/-- Deserialization of the whole query string into ImageQuery. -/
def deserializeImageQuery (ps : List (String × String)) : Except String ImageQuery :=
  deserFields ⟨none, none, none, none⟩ ps

/-! ### Path resolution

get_path_and_mime in lib.rs receives the wildcard capture of the route as
a relative PathBuf (percent-decoded by the Path extractor), cleans it with
path_clean::clean, strips one leading root separator when present, joins
the result to the configured root, and then checks existence and file
kind before detecting the format from the extension.

Paths are modelled as lists of components.  pathComponents models Rust's
Path::components on a raw path given as an absolute flag plus its slash
separated segments: empty segments collapse; single-dot segments become
the current-directory component (Path::components drops most of them, but
clean skips every current-directory component anyway, so keeping them is
observationally equal after cleaning). -/

/-- One component of a Rust path. -/
inductive Comp where
  | rootDir
  | curDir
  | parentDir
  | normal (s : String)
deriving DecidableEq

/-- Turn one raw segment into a component. -/
def toComp (s : String) : Comp :=
  if s = "." then Comp.curDir
  else if s = ".." then Comp.parentDir
  else Comp.normal s

/-- Components of a raw path given as an absolute flag and its segments. -/
def pathComponents (absolute : Bool) (segs : List String) : List Comp :=
  let cs := (segs.filter (fun s => ¬ s = "")).map toComp
  if absolute then Comp.rootDir :: cs else cs

/-- Body of path_clean::clean, ported component by component: skip
current-directory components; a parent-directory component pops a normal
component, disappears against the root, and is kept when the output is
empty or already ends in a parent-directory component. -/
def cleanComps (cs : List Comp) : List Comp :=
  cs.foldl
    (fun out c =>
      match c with
      | Comp.curDir => out
      | Comp.parentDir =>
        match out.getLast? with
        | some Comp.rootDir => out
        | some (Comp.normal _) => out.dropLast
        | _ => out ++ [Comp.parentDir]
      | c => out ++ [c])
    []

/-- path_clean::clean; an empty result denotes the current directory. -/
def clean (absolute : Bool) (segs : List String) : List Comp :=
  let out := cleanComps (pathComponents absolute segs)
  if out = [] then [Comp.curDir] else out

/-- Path::strip_prefix with the root separator, with unwrap_or keeping the
path unchanged when it is relative, as in lib.rs. -/
def stripRootDir (cs : List Comp) : List Comp :=
  match cs with
  | Comp.rootDir :: rest => rest
  | cs => cs

/-- PathBuf::join of the configured root directory and a cleaned path; an
absolute right-hand side would replace the root entirely. -/
def joinPath (root : List String) (cs : List Comp) : List Comp :=
  match cs with
  | Comp.rootDir :: _ => cs
  | _ => root.map Comp.normal ++ cs

/-- Lexical canonical form of a joined path, as the operating system
resolves remaining dot-dot components against their parent directories
(symbolic links are out of scope). -/
def canonAbs (cs : List Comp) : List String :=
  cs.foldl
    (fun acc c =>
      match c with
      | Comp.normal s => acc ++ [s]
      | Comp.parentDir => acc.dropLast
      | _ => acc)
    []

/-- Whether the canonical form of a resolved path stays inside the root
subtree. -/
def withinRoot (root : List String) (cs : List Comp) : Bool :=
  root.isPrefixOf (canonAbs cs)

/-- The file name of a path: its last normal component. -/
def fileNameOf (cs : List Comp) : Option String :=
  match cs.getLast? with
  | some (Comp.normal s) => some s
  | _ => none

/-- Format detection from a resolved path, modelling find_image_mime
applied to MimeGuess::from_path: guess from the extension of the file
name. -/
def formatFromPath (cs : List Comp) : Option ImageFormat :=
  match fileNameOf cs with
  | none => none
  | some name =>
    match extOf name with
    | none => none
    | some ext => mimeFromExt ext

/-- The file-system facts a request can observe: existence, regular-file
kind and contents of a path, all keyed by canonical absolute paths. -/
structure Fs where
  pathExists : List String → Bool
  pathIsFile : List String → Bool
  contents : List String → List Nat

/-- get_path_and_mime of lib.rs: clean, strip one leading separator, join
to the root, reject missing or non-regular files with 404, then detect the
format from the extension or reject with 400. -/
def get_path_and_mime (fs : Fs) (root : List String) (absolute : Bool)
    (segs : List String) : Except Err (List Comp × ImageFormat) :=
  let p := clean absolute segs
  let p := stripRootDir p
  let path := joinPath root p
  if fs.pathExists (canonAbs path) ∧ fs.pathIsFile (canonAbs path) then
    match formatFromPath path with
    | some mime => Except.ok (path, mime)
    | none => Except.error (400, "Unsupported file type")
  else Except.error (404, "File not found")

/-! ### Exact binary32 arithmetic

Unnormalized fractions (no gcd reduction, so every operation reduces in
the kernel) carry the exact values; every f32 operation of
get_output_size is the correctly rounded IEEE-754 binary32 result of the
exact rational operation.  The invariant maintained by all constructors
below is a positive denominator. -/

/-- An unnormalized fraction: numerator over a positive denominator. -/
structure Q where
  num : Int
  den : Nat
deriving DecidableEq

/-- Embed an integer. -/
def Q.ofInt (n : Int) : Q := ⟨n, 1⟩

/-- Exact sum. -/
def Q.add (a b : Q) : Q := ⟨a.num * b.den + b.num * a.den, a.den * b.den⟩

/-- Exact product. -/
def Q.mul (a b : Q) : Q := ⟨a.num * b.num, a.den * b.den⟩

/-- Exact quotient; the sign moves to the numerator so the denominator
stays positive (division by an exact zero is handled by the caller). -/
def Q.divi (a b : Q) : Q :=
  if 0 ≤ b.num then ⟨a.num * b.den, a.den * b.num.toNat⟩
  else ⟨-(a.num * b.den), a.den * (-b.num).toNat⟩

/-- Strict order by cross multiplication. -/
def Q.blt (a b : Q) : Bool := a.num * b.den < b.num * a.den

/-- Weak order by cross multiplication. -/
def Q.ble (a b : Q) : Bool := a.num * b.den ≤ b.num * a.den

/-- Floor of the fraction, using flooring integer division. -/
def Q.floor (a : Q) : Int := a.num.fdiv a.den

/-- Power of two as a fraction, for either sign of the exponent. -/
def qpow2 (e : Int) : Q :=
  if 0 ≤ e then ⟨2 ^ e.toNat, 1⟩ else ⟨1, 2 ^ (-e).toNat⟩

/-- Exact scaling by a power of two. -/
def Q.mulPow2 (q : Q) (e : Int) : Q := q.mul (qpow2 e)

/-- Round to the nearest integer, ties to even: the IEEE-754 default
rounding applied to a scaled significand. -/
def rneInt (q : Q) : Int :=
  let n := q.floor
  let frac := q.add (Q.ofInt (-n))
  if frac.blt ⟨1, 2⟩ then n
  else if Q.blt ⟨1, 2⟩ frac then n + 1
  else if n % 2 = 0 then n else n + 1

/-- Fuel-driven binary logarithm (the library version does not reduce in
the kernel). -/
def log2fuel : Nat → Nat → Nat
  | 0, _ => 0
  | fuel + 1, n => if n < 2 then 0 else log2fuel fuel (n / 2) + 1

/-- Floor of the binary logarithm of a natural number. -/
def nlog2 (n : Nat) : Nat := log2fuel n n

/-- Floor of the binary logarithm of a positive fraction. -/
def floorLog2Q (q : Q) : Int :=
  let e0 : Int := (nlog2 q.num.toNat : Int) - (nlog2 q.den : Int)
  if q.blt (qpow2 e0) then e0 - 1 else e0

/-- Round a nonnegative exact value to the nearest binary32 value (ties to
even), handling the subnormal range and returning none on overflow to
infinity. -/
def roundF32q (q : Q) : Option Q :=
  if q.num = 0 then some ⟨0, 1⟩
  else
    let e := max (floorLog2Q q) (-126)
    let scale := e - 23
    let m := rneInt (q.mulPow2 (-scale))
    let r := (Q.ofInt m).mulPow2 scale
    if Q.ble (qpow2 128) r then none else some r

/-- A nonnegative f32 value: not-a-number, positive infinity, or a finite
value carried exactly. -/
inductive F32 where
  | nan : F32
  | inf : F32
  | val : Q → F32
deriving DecidableEq

/-- Conversion of a u32 to f32 (Rust: as f32), correctly rounded; u32
values never overflow binary32. -/
def f32ofU32 (n : Nat) : F32 :=
  match roundF32q ⟨n, 1⟩ with
  | some r => F32.val r
  | none => F32.inf

/-- f32 division on the nonnegative fragment. -/
def F32.div : F32 → F32 → F32
  | F32.nan, _ => F32.nan
  | _, F32.nan => F32.nan
  | F32.inf, F32.inf => F32.nan
  | F32.inf, F32.val _ => F32.inf
  | F32.val _, F32.inf => F32.val ⟨0, 1⟩
  | F32.val a, F32.val b =>
    if b.num = 0 then (if a.num = 0 then F32.nan else F32.inf)
    else
      match roundF32q (a.divi b) with
      | some r => F32.val r
      | none => F32.inf

/-- f32 multiplication on the nonnegative fragment. -/
def F32.mul : F32 → F32 → F32
  | F32.nan, _ => F32.nan
  | _, F32.nan => F32.nan
  | F32.inf, F32.val b => if b.num = 0 then F32.nan else F32.inf
  | F32.val a, F32.inf => if a.num = 0 then F32.nan else F32.inf
  | F32.inf, F32.inf => F32.inf
  | F32.val a, F32.val b =>
    match roundF32q (a.mul b) with
    | some r => F32.val r
    | none => F32.inf

/-- Round half away from zero on an exact value, the semantics of Rust's
f32::round. -/
def roundHalfAwayQ (q : Q) : Int :=
  if Q.ble ⟨0, 1⟩ q then (q.add ⟨1, 2⟩).floor else -(((Q.mul ⟨-1, 1⟩ q).add ⟨1, 2⟩).floor)

/-- f32::round; the result of rounding a finite binary32 value is exactly
representable, so no re-rounding occurs. -/
def F32.rnd : F32 → F32
  | F32.nan => F32.nan
  | F32.inf => F32.inf
  | F32.val q => F32.val (Q.ofInt (roundHalfAwayQ q))

/-- Rust cast from f32 to u32 (as u32): not-a-number becomes 0, the value
is truncated toward zero and saturated into the u32 range. -/
def f32toU32 (x : F32) : Nat :=
  match x with
  | F32.nan => 0
  | F32.inf => 2 ^ 32 - 1
  | F32.val q => if q.ble ⟨0, 1⟩ then 0 else min q.floor.toNat (2 ^ 32 - 1)

/-- get_output_size of lib.rs: the aspect ratio is the f32 quotient of the
source dimensions; a missing dimension is inferred from the other through
the aspect ratio with f32::round and a saturating cast; then both
dimensions are multiplied by dpr in u32 arithmetic, which wraps modulo
2 ^ 32 in release builds. -/
def get_output_size (src : Nat × Nat) (dst : Option Nat × Option Nat)
    (dpr : Nat) : Nat × Nat :=
  let aspect := (f32ofU32 src.1).div (f32ofU32 src.2)
  let wh : Nat × Nat :=
    match dst with
    | (some w, some h) => (w, h)
    | (some w, none) => (w, f32toU32 (((f32ofU32 w).div aspect).rnd))
    | (none, some h) => (f32toU32 (((f32ofU32 h).mul aspect).rnd), h)
    | (none, none) => (src.1, src.2)
  (wh.1 * dpr % 2 ^ 32, wh.2 * dpr % 2 ^ 32)

/-! ### Resize configuration (config.rs) -/

/-- The resize configuration of config.rs: two algorithm-selection strings
and the cache capacity. -/
structure ResizeConfig where
  filter_type : String
  algorithm : String
  cache_size : Nat
deriving DecidableEq

/-- The filter enumeration of the resampling crate. -/
inductive FilterType where
  | lanczos3
  | gaussian
  | catmullRom
  | hamming
  | mitchell
  | bilinear
  | box
deriving DecidableEq

/-- The resize algorithm enumeration of the resampling crate. -/
inductive ResizeAlg where
  | superSampling (f : FilterType) (k : Nat)
  | interpolation (f : FilterType)
  | convolution (f : FilterType)
  | nearest
deriving DecidableEq

/-- Names accepted for the filter_type configuration string. -/
def validFilterNames : List String :=
  ["lanczos3", "gaussian", "catmull-rom", "hamming", "mitchell", "bilinear", "box"]

/-- Names accepted for the algorithm configuration string. -/
def validAlgorithmNames : List String :=
  ["super-sampling8x", "super-sampling4x", "super-sampling2x", "interpolation",
   "convolution", "nearest"]

/-- The filter-name match inside ResizeConfig::resize_algorithm; the
panicking catch-all arm is modelled as none. -/
def filterOfName (s : String) : Option FilterType :=
  if s = "lanczos3" then some FilterType.lanczos3
  else if s = "gaussian" then some FilterType.gaussian
  else if s = "catmull-rom" then some FilterType.catmullRom
  else if s = "hamming" then some FilterType.hamming
  else if s = "mitchell" then some FilterType.mitchell
  else if s = "bilinear" then some FilterType.bilinear
  else if s = "box" then some FilterType.box
  else none

/-- The algorithm-name match inside ResizeConfig::resize_algorithm; the
panicking catch-all arm is modelled as none. -/
def algOfName (f : FilterType) (s : String) : Option ResizeAlg :=
  if s = "super-sampling8x" then some (ResizeAlg.superSampling f 8)
  else if s = "super-sampling4x" then some (ResizeAlg.superSampling f 4)
  else if s = "super-sampling2x" then some (ResizeAlg.superSampling f 2)
  else if s = "interpolation" then some (ResizeAlg.interpolation f)
  else if s = "convolution" then some (ResizeAlg.convolution f)
  else if s = "nearest" then some ResizeAlg.nearest
  else none

/-- ResizeConfig::resize_algorithm of config.rs.  The Rust method panics on
an unrecognized filter_type or algorithm string; the panic is modelled as
none.  The filter string is matched first, so an invalid filter panics
even when the algorithm is nearest, which ignores the filter. -/
def resize_algorithm (c : ResizeConfig) : Option ResizeAlg :=
  match filterOfName c.filter_type with
  | none => none
  | some f => algOfName f c.algorithm

/-- The algorithm used by resize_image in lib.rs: Nearest under
debug_assertions, otherwise the configured algorithm resolved at request
time (which panics on invalid names, modelled as none). -/
def resize_image_alg (c : ResizeConfig) (debug_assertions : Bool) : Option ResizeAlg :=
  if debug_assertions then some ResizeAlg.nearest else resize_algorithm c

/-! ### The result cache

The store itself is the TimedSizedCache of the external cached crate,
which is not part of this repository.  Modelled from the spec: a
capacity-bounded, TTL-limited map with refresh-on-read; an entry found but
older than the TTL is a miss; insertion beyond capacity evicts
oldest-by-last-refresh entries; capacity 0 keeps no entry at all.  The key
is the pair of resolved path and raw ImageQuery exactly as in lib.rs. -/

/-- The cache key used by provide_images in lib.rs: resolved path and the
raw deserialized query. -/
abbrev CacheKey := List Comp × ImageQuery

/-- One cache entry: key, cached bytes, and the time of the last refresh. -/
abbrev CacheEntry := CacheKey × List Nat × Nat

/-- The cache: capacity, time-to-live, and entries kept newest-first by
last refresh. -/
structure CacheState where
  capacity : Nat
  ttl : Nat
  entries : List CacheEntry
deriving DecidableEq

/-- Insert an entry into a list kept sorted by refresh time, newest first. -/
def insertByTime (e : CacheEntry) : List CacheEntry → List CacheEntry
  | [] => [e]
  | x :: xs => if x.2.2 ≤ e.2.2 then e :: x :: xs else x :: insertByTime e xs

/-- Sort entries newest-first by refresh time. -/
def sortByTime (es : List CacheEntry) : List CacheEntry :=
  es.foldr insertByTime []

/-- Lookup with sliding expiry: a fresh hit returns the bytes and renews
the entry timestamp; an absent or expired entry is a miss that leaves the
state unchanged. -/
def cacheLookup (now : Nat) (c : CacheState) (k : CacheKey) :
    Option (List Nat) × CacheState :=
  match c.entries.find? (fun e => decide (e.1 = k)) with
  | none => (none, c)
  | some e =>
    if now - e.2.2 ≤ c.ttl then
      (some e.2.1,
        { c with entries :=
            sortByTime ((k, e.2.1, now) :: c.entries.filter (fun x => decide (¬ x.1 = k))) })
    else (none, c)

/-- Insert: replace any entry for the key, then keep the newest entries up
to capacity, evicting oldest-by-last-refresh. -/
def cacheInsert (now : Nat) (c : CacheState) (k : CacheKey) (v : List Nat) :
    CacheState :=
  let kept :=
    (sortByTime ((k, v, now) :: c.entries.filter (fun x => decide (¬ x.1 = k)))).take c.capacity
  { c with entries := kept }

/-! ### Router state and startup (lib.rs get_images_router) -/

/-- The shared state each request handler receives. -/
structure ImageState where
  root : List String
  config : ResizeConfig
  cache : CacheState

/-- The cache lifespan constant of lib.rs: one day in seconds. -/
def CACHE_LIFESPAN : Nat := 24 * 60 * 60

/-- get_images_router of lib.rs: build the cache with the configured size
and the fixed lifespan, and store root and config unchanged in the state.
No configuration validation of any kind happens here. -/
def get_images_router (root : List String) (config : ResizeConfig) : ImageState :=
  { root := root
    config := config
    cache := { capacity := config.cache_size, ttl := CACHE_LIFESPAN, entries := [] } }

/-! ### The request handler (lib.rs provide_images)

The image codec and the resampler are external capabilities: decode,
resample and encode are supplied as functions whose failures map to the
500 responses of lib.rs.  The handler below models executions in which
the configured algorithm names are valid (an invalid name makes the
release-mode resize step panic; see resize_image_alg). -/

/-- A transient decoded pixel buffer. -/
structure PixelImage where
  width : Nat
  height : Nat
  pix : List Nat
deriving DecidableEq

/-- The codec capabilities: decode bytes, resample to a destination size,
encode in a target format. -/
structure Codec where
  decode : List Nat → Option PixelImage
  resample : PixelImage → Nat → Nat → Option PixelImage
  encode : ImageFormat → PixelImage → Option (List Nat)

/-- load_image of lib.rs: decode failure is a 500. -/
def load_image (codec : Codec) (buffer : List Nat) : Except Err PixelImage :=
  match codec.decode buffer with
  | some img => Except.ok img
  | none => Except.error (500, "Failed to decode image")

/-- The resize step of lib.rs under a valid configuration: resample
failure is a 500. -/
def resize_image_run (codec : Codec) (src : PixelImage) (dw dh : Nat) :
    Except Err PixelImage :=
  match codec.resample src dw dh with
  | some dst => Except.ok dst
  | none => Except.error (500, "Failed to resize image")

/-- encode_image of lib.rs: only WebP, Png and Jpeg are encode targets,
anything else is a 400; an encoder failure is a 500. -/
def encode_image (codec : Codec) (format : ImageFormat) (img : PixelImage) :
    Except Err (List Nat) :=
  match format with
  | ImageFormat.webp | ImageFormat.png | ImageFormat.jpeg =>
    match codec.encode format img with
    | some bs => Except.ok bs
    | none => Except.error (500, "Failed to encode image")
  | _ => Except.error (400, "Unsupported output format")

/-- What a successful response streams: the original file (pass-through)
or an in-memory buffer (cached or freshly transformed bytes). -/
inductive Body where
  | file (path : List Comp) (bytes : List Nat) : Body
  | buffer (bytes : List Nat) : Body
deriving DecidableEq

/-- provide_images of lib.rs: resolve path and source format, resolve the
requested output format, and serve the original file directly when no
resizing is needed or the source format is excluded (Ico, Gif); otherwise
look up the cache under the raw key, and on a miss run
decode, get_output_size, resample, encode, caching only a successful
result. -/
def provide_images (fs : Fs) (codec : Codec) (now : Nat) (st : ImageState)
    (query : ImageQuery) (absolute : Bool) (segs : List String) :
    Except Err Body × CacheState :=
  match get_path_and_mime fs st.root absolute segs with
  | Except.error e => (Except.error e, st.cache)
  | Except.ok (path, raw_mime) =>
    match query.outputFormat with
    | Except.error e => (Except.error e, st.cache)
    | Except.ok out =>
      let dst_mime := out.getD raw_mime
      let dpr := query.dprVal
      let eq_raw : Prop :=
        query.w = none ∧ query.h = none ∧ dpr = 1 ∧ raw_mime = dst_mime
      let exclude : Prop := raw_mime = ImageFormat.ico ∨ raw_mime = ImageFormat.gif
      if eq_raw ∨ exclude then
        (Except.ok (Body.file path (fs.contents (canonAbs path))), st.cache)
      else
        match cacheLookup now st.cache (path, query) with
        | (some bs, c1) => (Except.ok (Body.buffer bs), c1)
        | (none, c1) =>
          match load_image codec (fs.contents (canonAbs path)) with
          | Except.error e => (Except.error e, c1)
          | Except.ok src_image =>
            let dsz := get_output_size (src_image.width, src_image.height)
              (query.w, query.h) dpr
            match resize_image_run codec src_image dsz.1 dsz.2 with
            | Except.error e => (Except.error e, c1)
            | Except.ok dst_image =>
              match encode_image codec dst_mime dst_image with
              | Except.error e => (Except.error e, c1)
              | Except.ok bs =>
                (Except.ok (Body.buffer bs), cacheInsert now c1 (path, query) bs)

/-- The request as axum sees it: the typed query extractor runs first and
rejects the request with a 400 when deserialization fails; only then does
provide_images run. -/
def handle_request (fs : Fs) (codec : Codec) (now : Nat) (st : ImageState)
    (params : List (String × String)) (absolute : Bool) (segs : List String) :
    Except Err Body × CacheState :=
  match deserializeImageQuery params with
  | Except.error _ => (Except.error (400, "Failed to deserialize query string"), st.cache)
  | Except.ok q => provide_images fs codec now st q absolute segs

/-- Modelled from the spec: the same request flow with no cache at all
(the contract for capacity 0 in section 4.5), for comparison with the
handler running against a capacity-0 cache. -/
def provide_images_uncached (fs : Fs) (codec : Codec) (st : ImageState)
    (query : ImageQuery) (absolute : Bool) (segs : List String) :
    Except Err Body :=
  match get_path_and_mime fs st.root absolute segs with
  | Except.error e => Except.error e
  | Except.ok (path, raw_mime) =>
    match query.outputFormat with
    | Except.error e => Except.error e
    | Except.ok out =>
      let dst_mime := out.getD raw_mime
      let dpr := query.dprVal
      let eq_raw : Prop :=
        query.w = none ∧ query.h = none ∧ dpr = 1 ∧ raw_mime = dst_mime
      let exclude : Prop := raw_mime = ImageFormat.ico ∨ raw_mime = ImageFormat.gif
      if eq_raw ∨ exclude then
        Except.ok (Body.file path (fs.contents (canonAbs path)))
      else
        match load_image codec (fs.contents (canonAbs path)) with
        | Except.error e => Except.error e
        | Except.ok src_image =>
          let dsz := get_output_size (src_image.width, src_image.height)
            (query.w, query.h) dpr
          match resize_image_run codec src_image dsz.1 dsz.2 with
          | Except.error e => Except.error e
          | Except.ok dst_image =>
            match encode_image codec dst_mime dst_image with
            | Except.error e => Except.error e
            | Except.ok bs => Except.ok (Body.buffer bs)

/-! ### Concrete scenarios used by closed evaluations -/

/-- A file system with one regular file outside the configured root: the
root is the images directory under srv, the file secret.png sits next to
it directly under srv. -/
def fsTraversal : Fs :=
  { pathExists := fun p => decide (p = ["srv", "secret.png"])
    pathIsFile := fun p => decide (p = ["srv", "secret.png"])
    contents := fun _ => [99] }

/-- A file system with a single png file under the root srv. -/
def fsDemo : Fs :=
  { pathExists := fun p => decide (p = ["srv", "a.png"])
    pathIsFile := fun p => decide (p = ["srv", "a.png"])
    contents := fun p => if p = ["srv", "a.png"] then [7, 8, 9] else [] }

/-- A deterministic total codec. -/
def codecDemo : Codec :=
  { decode := fun _ => some ⟨800, 600, [1, 2]⟩
    resample := fun img dw dh => some ⟨dw, dh, img.pix⟩
    encode := fun _ img => some (img.width :: img.height :: img.pix) }

/-- A codec whose decode step always fails, standing for a corrupt source
file. -/
def codecFailing : Codec :=
  { decode := fun _ => none
    resample := fun _ _ _ => none
    encode := fun _ _ => none }

/-- The state produced by startup with a default-like configuration. -/
def stDemo : ImageState :=
  get_images_router ["srv"] ⟨"lanczos3", "interpolation", 200⟩

/-- A state whose cache already holds one entry for another request. -/
def stWithEntry : ImageState :=
  { root := ["srv"]
    config := ⟨"lanczos3", "interpolation", 200⟩
    cache :=
      { capacity := 200
        ttl := CACHE_LIFESPAN
        entries :=
          [(([Comp.normal "srv", Comp.normal "b.png"], ⟨none, none, some 3, none⟩), [5], 1)] } }

/-- The state produced by startup with cache capacity 0. -/
def stZero : ImageState :=
  get_images_router ["srv"] ⟨"lanczos3", "interpolation", 0⟩

/-- A configuration with an unrecognized filter name. -/
def badConfig : ResizeConfig := ⟨"bogus", "interpolation", 200⟩

/-! ### Claims -/

/-- C1: the spec claims that for every raw request path, including paths
with traversal sequences, the path resolved by joining to the configured
root lies within the root subtree or the request is rejected.  The code
violates this: path_clean keeps leading parent-directory components of a
relative path, and the wildcard capture joined in get_path_and_mime is
relative, so the raw path consisting of a dot-dot segment followed by
secret.png resolves to an existing file directly under srv, outside the
root srv/images, and is served as a png rather than rejected. -/
theorem c1_path_resolver_escapes_root :
    get_path_and_mime fsTraversal ["srv", "images"] false ["..", "secret.png"]
      = Except.ok
          ([Comp.normal "srv", Comp.normal "images", Comp.parentDir,
            Comp.normal "secret.png"], ImageFormat.png)
    ∧ canonAbs
        [Comp.normal "srv", Comp.normal "images", Comp.parentDir,
          Comp.normal "secret.png"] = ["srv", "secret.png"]
    ∧ withinRoot ["srv", "images"]
        [Comp.normal "srv", Comp.normal "images", Comp.parentDir,
          Comp.normal "secret.png"] = false := by
  refine ⟨rfl, by decide, by decide⟩

/-- C4: the effective dpr defaults to 1 when the parameter is absent and is
clamped into the interval from 1 to 3 for every requested value; in
particular a requested 10 behaves as 3 and a requested 0 behaves as 1. -/
theorem c4_dpr_default_and_clamp :
    (∀ q : ImageQuery, 1 ≤ q.dprVal ∧ q.dprVal ≤ 3)
    ∧ (∀ output w h, ImageQuery.dprVal ⟨output, none, w, h⟩ = 1)
    ∧ (∀ output w h, ImageQuery.dprVal ⟨output, some 10, w, h⟩ = 3)
    ∧ (∀ output w h, ImageQuery.dprVal ⟨output, some 0, w, h⟩ = 1) := by
  refine ⟨fun q => ?_, fun _ _ _ => rfl, fun _ _ _ => rfl, fun _ _ _ => rfl⟩
  simp only [ImageQuery.dprVal, rustClamp]
  split <;> [omega; split <;> omega]

/-- C10: the dpr multiplication of get_output_size is unchecked u32
arithmetic, so in release builds the product wraps modulo 2 to the 32 for
every input, with no rejection or clamping (first conjunct, and a
concrete wrap where 2 to the 31 times 2 becomes 0), and the float-to-u32
cast of an inferred dimension saturates at the largest u32 (last
conjunct: source 1 by 2 to the 20 with requested width 2 to the 20 infers
a height of 2 to the 40, cast saturates to 2 to the 32 minus 1). -/
theorem c10_dimension_wrap_and_cast_saturation :
    (∀ sw sh w h dpr, get_output_size (sw, sh) (some w, some h) dpr
        = (w * dpr % 2 ^ 32, h * dpr % 2 ^ 32))
    ∧ get_output_size (1, 1) (some (2 ^ 31), some 1) 2 = (0, 2)
    ∧ get_output_size (1, 2 ^ 20) (some (2 ^ 20), none) 1 = (2 ^ 20, 2 ^ 32 - 1) := by
  refine ⟨fun sw sh w h dpr => rfl, by decide, by decide⟩

/-- C6 counterexample: the spec claims two requests differing only in
un-normalized dpr spellings with the same clamped value share one cache
key.  The code keys the cache by the raw ImageQuery, so the queries with
dpr 10 and dpr 3 agree on every normalized field (clamped dpr, output
format, width, height) and on the path, yet produce distinct cache keys. -/
theorem c6_clamped_dpr_distinct_keys_counterexample :
    ImageQuery.dprVal ⟨none, some 10, none, none⟩
        = ImageQuery.dprVal ⟨none, some 3, none, none⟩
    ∧ ImageQuery.outputFormat ⟨none, some 10, none, none⟩
        = ImageQuery.outputFormat ⟨none, some 3, none, none⟩
    ∧ (ImageQuery.mk none (some 10) none none).w = (ImageQuery.mk none (some 3) none none).w
    ∧ (ImageQuery.mk none (some 10) none none).h = (ImageQuery.mk none (some 3) none none).h
    ∧ ¬ ((([Comp.normal "srv", Comp.normal "a.png"], ⟨none, some 10, none, none⟩) : CacheKey)
          = (([Comp.normal "srv", Comp.normal "a.png"], ⟨none, some 3, none, none⟩) : CacheKey)) := by
  refine ⟨rfl, rfl, rfl, rfl, by decide⟩

/-- C6 amended: two requests map to the same cache key exactly when the
resolved path and every raw query field (the output string as sent, the
raw dpr, width, height) are equal; normalization such as dpr clamping is
not applied to the key. -/
theorem c6_cache_key_is_path_and_raw_query (p1 p2 : List Comp) (q1 q2 : ImageQuery) :
    (((p1, q1) : CacheKey) = ((p2, q2) : CacheKey))
      ↔ p1 = p2 ∧ q1.output = q2.output ∧ q1.dpr = q2.dpr ∧ q1.w = q2.w ∧ q1.h = q2.h := by
  cases q1
  cases q2
  simp [Prod.ext_iff, ImageQuery.mk.injEq, and_assoc]

/-- C9 counterexample: the spec claims invalid filter or algorithm names
are rejected at process startup and never cause a failure during request
handling.  The code does neither: get_images_router stores the invalid
configuration unchanged (no validation exists at startup), and the
request-time algorithm resolution inside resize_image panics in release
builds (modelled as none); debug builds ignore the configured names
entirely. -/
theorem c9_invalid_config_accepted_at_startup :
    (get_images_router ["srv"] badConfig).config = badConfig
    ∧ (get_images_router ["srv"] badConfig).cache.capacity = 200
    ∧ resize_algorithm badConfig = none
    ∧ resize_image_alg badConfig false = none
    ∧ resize_image_alg badConfig true = some ResizeAlg.nearest := by
  refine ⟨rfl, rfl, by decide, by decide, rfl⟩

/-- C9 amended: an unrecognized filter or algorithm name passes startup
untouched (the router construction stores the configuration as given) and
makes the request-time algorithm resolution of resize_image fail in
release builds, where the Rust code panics. -/
theorem c9_invalid_names_fail_at_request_time (root : List String)
    (c : ResizeConfig)
    (hbad : ¬ c.filter_type ∈ validFilterNames ∨ ¬ c.algorithm ∈ validAlgorithmNames) :
    resize_image_alg c false = none ∧ (get_images_router root c).config = c := by
  refine ⟨?_, rfl⟩
  have : resize_algorithm c = none := by
    rcases hbad with hf | ha
    · simp only [validFilterNames, List.mem_cons, List.not_mem_nil] at hf
      push_neg at hf
      simp [resize_algorithm, filterOfName, hf]
    · simp only [validAlgorithmNames, List.mem_cons, List.not_mem_nil] at ha
      push_neg at ha
      cases hft : filterOfName c.filter_type with
      | none => simp [resize_algorithm, hft]
      | some f => simp [resize_algorithm, hft, algOfName, ha]
  simpa [resize_image_alg] using this

/-- C9 witness: the amended statement applied to the concrete invalid
configuration. -/
theorem c9_invalid_names_fail_at_request_time_witness :
    resize_image_alg badConfig false = none
    ∧ (get_images_router ["srv"] badConfig).config = badConfig :=
  c9_invalid_names_fail_at_request_time ["srv"] badConfig (Or.inl (by decide))

/-- A numeric field (dpr, w or h) whose value does not parse as u32 makes
the visitor step fail, whatever the accumulator holds. -/
theorem deserStep_numeric_fail (acc : ImageQuery) (key s : String)
    (hkey : key ∈ ["dpr", "w", "h"]) (hparse : parseU32 s.data = none) :
    ∃ e, deserStep acc (key, s) = Except.error e := by
  simp only [List.mem_cons, List.not_mem_nil, or_false] at hkey
  rcases hkey with h | h | h <;> subst h
  · cases hd : acc.dpr <;> simp [deserStep, hparse, hd]
  · cases hw : acc.w <;> simp [deserStep, hparse, hw]
  · cases hh : acc.h <;> simp [deserStep, hparse, hh]

/-- Propagation: once a pair with an unparsable numeric value occurs in the
list, the visitor fold ends in an error. -/
theorem deserFields_numeric_fail (key s : String)
    (hkey : key ∈ ["dpr", "w", "h"]) (hparse : parseU32 s.data = none) :
    ∀ (ps : List (String × String)) (acc : ImageQuery), (key, s) ∈ ps →
      ∃ e, deserFields acc ps = Except.error e := by
  intro ps
  induction ps with
  | nil => intro acc hmem; simp at hmem
  | cons kv rest ih =>
    intro acc hmem
    rcases List.mem_cons.mp hmem with heq | htail
    · obtain ⟨e, he⟩ := deserStep_numeric_fail acc key s hkey hparse
      exact ⟨e, by simp [deserFields, ← heq, he]⟩
    · cases hstep : deserStep acc kv with
      | error e => exact ⟨e, by simp [deserFields, hstep]⟩
      | ok acc2 =>
        obtain ⟨e, he⟩ := ih acc2 htail
        exact ⟨e, by simp [deserFields, hstep, he]⟩

/-- C5 counterexample: the spec claims an unparsable numeric query value is
treated as absent and the request proceeds.  lib.rs deserializes the query
through the typed Query extractor, so the request with the unparsable dpr
value x is rejected with a 400 deserialization error before the handler
runs, while the same request without the parameter succeeds as a
pass-through. -/
theorem c5_unparsable_dpr_rejected_counterexample :
    handle_request fsDemo codecDemo 0 stDemo [("dpr", "x")] false ["a.png"]
      = (Except.error (400, "Failed to deserialize query string"), stDemo.cache)
    ∧ (handle_request fsDemo codecDemo 0 stDemo [] false ["a.png"]).1
      = Except.ok (Body.file [Comp.normal "srv", Comp.normal "a.png"] [7, 8, 9]) := by
  exact ⟨rfl, rfl⟩

/-- C5 amended: a query containing a numeric parameter (dpr, w or h) whose
value does not parse as u32 makes the whole deserialization fail, and the
request is rejected by the query extractor with a 400; the parameter is
not treated as absent. -/
theorem c5_unparsable_numeric_rejects_request (ps : List (String × String))
    (key s : String) (hkey : key ∈ ["dpr", "w", "h"]) (hmem : (key, s) ∈ ps)
    (hparse : parseU32 s.data = none) :
    (∃ e, deserializeImageQuery ps = Except.error e)
    ∧ ∀ fs codec now st absolute segs,
        handle_request fs codec now st ps absolute segs
          = (Except.error (400, "Failed to deserialize query string"), st.cache) := by
  obtain ⟨e, he⟩ := deserFields_numeric_fail key s hkey hparse ps ⟨none, none, none, none⟩ hmem
  have hq : deserializeImageQuery ps = Except.error e := he
  exact ⟨⟨e, hq⟩, fun fs codec now st absolute segs => by simp [handle_request, hq]⟩

/-- C5 witness: the amended statement applied to the concrete query list
with the unparsable dpr value. -/
theorem c5_unparsable_numeric_rejects_request_witness :
    (∃ e, deserializeImageQuery [("dpr", "x")] = Except.error e)
    ∧ handle_request fsDemo codecDemo 0 stDemo [("dpr", "x")] false ["b.png"]
        = (Except.error (400, "Failed to deserialize query string"), stDemo.cache) :=
  ⟨(c5_unparsable_numeric_rejects_request [("dpr", "x")] "dpr" "x" (by decide) (by decide)
      (by decide)).1,
    (c5_unparsable_numeric_rejects_request [("dpr", "x")] "dpr" "x" (by decide) (by decide)
      (by decide)).2 fsDemo codecDemo 0 stDemo false ["b.png"]⟩

/-- A cache miss leaves the cache untouched: both the absent-key case and
the expired-entry case of cacheLookup return the state unchanged. -/
theorem cacheLookup_miss (now : Nat) (c : CacheState) (k : CacheKey)
    (c1 : CacheState) (h : cacheLookup now c k = (none, c1)) : c1 = c := by
  unfold cacheLookup at h
  split at h
  · exact ((Prod.ext_iff.mp h).2).symm
  · split at h
    · exact absurd (Prod.ext_iff.mp h).1 (by simp)
    · exact ((Prod.ext_iff.mp h).2).symm

/-- C7: a request that fails (path resolution, output resolution, decode,
resize or encode) leaves the result cache exactly as it was: entries are
inserted only after a successful transform. -/
theorem c7_failed_transform_leaves_cache_unchanged (fs : Fs) (codec : Codec)
    (now : Nat) (st : ImageState) (query : ImageQuery) (absolute : Bool)
    (segs : List String) (e : Err)
    (herr : (provide_images fs codec now st query absolute segs).1 = Except.error e) :
    (provide_images fs codec now st query absolute segs).2 = st.cache := by
  unfold provide_images at herr ⊢
  cases h1 : get_path_and_mime fs st.root absolute segs with
  | error err => simp [h1]
  | ok pm =>
    obtain ⟨path, raw⟩ := pm
    simp only [h1] at herr ⊢
    cases h2 : query.outputFormat with
    | error err => simp [h2]
    | ok out =>
      simp only [h2] at herr ⊢
      by_cases hg :
        (query.w = none ∧ query.h = none ∧ query.dprVal = 1 ∧ raw = out.getD raw)
          ∨ raw = ImageFormat.ico ∨ raw = ImageFormat.gif
      · rw [if_pos hg]
      · rw [if_neg hg] at herr ⊢
        rcases h3 : cacheLookup now st.cache (path, query) with ⟨found, c1⟩
        rw [h3] at herr
        cases found with
        | some bs => simp at herr
        | none =>
          have hc1 : c1 = st.cache := cacheLookup_miss now st.cache (path, query) c1 h3
          subst hc1
          cases h4 : load_image codec (fs.contents (canonAbs path)) with
          | error err4 => simp [h4]
          | ok src_image =>
            simp only [h4] at herr ⊢
            cases h5 : resize_image_run codec src_image
                (get_output_size (src_image.width, src_image.height)
                  (query.w, query.h) query.dprVal).1
                (get_output_size (src_image.width, src_image.height)
                  (query.w, query.h) query.dprVal).2 with
            | error err5 => simp [h5]
            | ok dst_image =>
              simp only [h5] at herr ⊢
              cases h6 : encode_image codec (out.getD raw) dst_image with
              | error err6 => simp [h6]
              | ok bs => simp [h6] at herr

/-- C7 witness: a request whose decode step fails, against a cache already
holding an unrelated entry; the failing request leaves that cache intact. -/
theorem c7_failed_transform_leaves_cache_unchanged_witness :
    (provide_images fsDemo codecFailing 5 stWithEntry ⟨none, none, some 10, none⟩ false
        ["a.png"]).1 = Except.error (500, "Failed to decode image")
    ∧ (provide_images fsDemo codecFailing 5 stWithEntry ⟨none, none, some 10, none⟩ false
        ["a.png"]).2 = stWithEntry.cache := by
  refine ⟨rfl, ?_⟩
  exact c7_failed_transform_leaves_cache_unchanged fsDemo codecFailing 5 stWithEntry
    ⟨none, none, some 10, none⟩ false ["a.png"] (500, "Failed to decode image") rfl

/-- C8: with cache capacity 0 (a valid configuration), caching is disabled
entirely: lookup always misses and leaves the state unchanged, insert
keeps no entry, the handler never accumulates entries, and its response is
the one of the cache-free request flow, so pass-through and transform
logic work unchanged without a cache. -/
theorem c8_capacity_zero_disables_cache (fs : Fs) (codec : Codec) (now : Nat)
    (st : ImageState) (query : ImageQuery) (absolute : Bool) (segs : List String)
    (k : CacheKey) (v : List Nat)
    (hcap : st.cache.capacity = 0) (hent : st.cache.entries = []) :
    cacheLookup now st.cache k = (none, st.cache)
    ∧ (cacheInsert now st.cache k v).entries = []
    ∧ (provide_images fs codec now st query absolute segs).2.entries = []
    ∧ (provide_images fs codec now st query absolute segs).1
        = provide_images_uncached fs codec st query absolute segs := by
  have hlook : ∀ k2, cacheLookup now st.cache k2 = (none, st.cache) := by
    intro k2
    unfold cacheLookup
    rw [hent]
    simp
  have hins : ∀ k2 v2, (cacheInsert now st.cache k2 v2).entries = [] := by
    intro k2 v2
    unfold cacheInsert
    rw [hcap]
    simp
  refine ⟨hlook k, hins k v, ?_⟩
  unfold provide_images provide_images_uncached
  cases h1 : get_path_and_mime fs st.root absolute segs with
  | error err => simp [hent]
  | ok pm =>
    obtain ⟨path, raw⟩ := pm
    cases h2 : query.outputFormat with
    | error err => simp [hent]
    | ok out =>
      simp only []
      by_cases hg :
        (query.w = none ∧ query.h = none ∧ query.dprVal = 1 ∧ raw = out.getD raw)
          ∨ raw = ImageFormat.ico ∨ raw = ImageFormat.gif
      · rw [if_pos hg, if_pos hg]
        exact ⟨hent, rfl⟩
      · rw [if_neg hg, if_neg hg]
        rw [hlook (path, query)]
        cases h4 : load_image codec (fs.contents (canonAbs path)) with
        | error err4 => simp [hent]
        | ok src_image =>
          simp only []
          cases h5 : resize_image_run codec src_image
              (get_output_size (src_image.width, src_image.height)
                (query.w, query.h) query.dprVal).1
              (get_output_size (src_image.width, src_image.height)
                (query.w, query.h) query.dprVal).2 with
          | error err5 => simp [hent]
          | ok dst_image =>
            simp only []
            cases h6 : encode_image codec (out.getD raw) dst_image with
            | error err6 => simp [hent]
            | ok bs => simp [hins]

/-- C8 witness: the capacity-0 statement applied to the state built by
startup with cache size 0, a resize request on the demo file system. -/
theorem c8_capacity_zero_disables_cache_witness :
    cacheLookup 7 stZero.cache
        ([Comp.normal "srv", Comp.normal "a.png"], ⟨none, none, some 2, none⟩)
      = (none, stZero.cache)
    ∧ (cacheInsert 7 stZero.cache
        ([Comp.normal "srv", Comp.normal "a.png"], ⟨none, none, some 2, none⟩) [1]).entries
      = []
    ∧ (provide_images fsDemo codecDemo 7 stZero ⟨none, none, some 2, none⟩ false
        ["a.png"]).2.entries = []
    ∧ (provide_images fsDemo codecDemo 7 stZero ⟨none, none, some 2, none⟩ false
        ["a.png"]).1
      = provide_images_uncached fsDemo codecDemo stZero ⟨none, none, some 2, none⟩ false
          ["a.png"] :=
  c8_capacity_zero_disables_cache fsDemo codecDemo 7 stZero ⟨none, none, some 2, none⟩
    false ["a.png"]
    ([Comp.normal "srv", Comp.normal "a.png"], ⟨none, none, some 2, none⟩) [1] rfl rfl

/-- C2: for a request whose path and output format resolve, a successful
response streams the original file (pass-through, body byte-identical to
the source bytes) exactly when either no width and no height are
requested, the effective dpr is 1 and the requested output format equals
the source format, or the source format is Ico or Gif; every other
successful response streams an in-memory buffer produced by the transform
pipeline (fresh or previously cached). -/
theorem c2_passthrough_iff (fs : Fs) (codec : Codec) (now : Nat) (st : ImageState)
    (query : ImageQuery) (absolute : Bool) (segs : List String)
    (path : List Comp) (raw_mime : ImageFormat) (out : Option ImageFormat)
    (b : Body) (c2 : CacheState)
    (hpath : get_path_and_mime fs st.root absolute segs = Except.ok (path, raw_mime))
    (hout : query.outputFormat = Except.ok out)
    (hres : provide_images fs codec now st query absolute segs = (Except.ok b, c2)) :
    (b = Body.file path (fs.contents (canonAbs path)))
      ↔ ((query.w = none ∧ query.h = none ∧ query.dprVal = 1
            ∧ raw_mime = out.getD raw_mime)
          ∨ raw_mime = ImageFormat.ico ∨ raw_mime = ImageFormat.gif) := by
  unfold provide_images at hres
  simp only [hpath, hout] at hres
  by_cases hg :
    (query.w = none ∧ query.h = none ∧ query.dprVal = 1 ∧ raw_mime = out.getD raw_mime)
      ∨ raw_mime = ImageFormat.ico ∨ raw_mime = ImageFormat.gif
  · rw [if_pos hg] at hres
    have hb : b = Body.file path (fs.contents (canonAbs path)) := by
      have h1 := (Prod.ext_iff.mp hres).1
      cases h1
      rfl
    exact iff_of_true hb hg
  · rw [if_neg hg] at hres
    have hb : ∃ bs, b = Body.buffer bs := by
      rcases h3 : cacheLookup now st.cache (path, query) with ⟨found, c1⟩
      simp only [h3] at hres
      cases found with
      | some bs =>
        simp only [] at hres
        have h1 := (Prod.ext_iff.mp hres).1
        cases h1
        exact ⟨bs, rfl⟩
      | none =>
        cases h4 : load_image codec (fs.contents (canonAbs path)) with
        | error err4 => simp [h4] at hres
        | ok src_image =>
          simp only [h4] at hres
          cases h5 : resize_image_run codec src_image
              (get_output_size (src_image.width, src_image.height)
                (query.w, query.h) query.dprVal).1
              (get_output_size (src_image.width, src_image.height)
                (query.w, query.h) query.dprVal).2 with
          | error err5 => simp [h5] at hres
          | ok dst_image =>
            simp only [h5] at hres
            cases h6 : encode_image codec (out.getD raw_mime) dst_image with
            | error err6 => simp [h6] at hres
            | ok bs =>
              simp only [h6] at hres
              have h1 := (Prod.ext_iff.mp hres).1
              cases h1
              exact ⟨bs, rfl⟩
    obtain ⟨bs, rfl⟩ := hb
    exact iff_of_false (by simp) hg

/-- C2 witness: the pass-through case on the demo file system with an
empty query, where the response body is the source file bytes. -/
theorem c2_passthrough_iff_witness :
    ((Body.file [Comp.normal "srv", Comp.normal "a.png"] [7, 8, 9] : Body)
        = Body.file [Comp.normal "srv", Comp.normal "a.png"]
            (fsDemo.contents (canonAbs [Comp.normal "srv", Comp.normal "a.png"])))
      ↔ (((ImageQuery.mk none none none none).w = none
            ∧ (ImageQuery.mk none none none none).h = none
            ∧ (ImageQuery.mk none none none none).dprVal = 1
            ∧ ImageFormat.png = (Option.getD none ImageFormat.png))
          ∨ ImageFormat.png = ImageFormat.ico ∨ ImageFormat.png = ImageFormat.gif) :=
  c2_passthrough_iff fsDemo codecDemo 3 stDemo ⟨none, none, none, none⟩ false ["a.png"]
    [Comp.normal "srv", Comp.normal "a.png"] ImageFormat.png none
    (Body.file [Comp.normal "srv", Comp.normal "a.png"] [7, 8, 9]) stDemo.cache rfl rfl rfl

/-- Rounding a nonnegative finite f32 value and casting it to u32 yields
exactly the round-half-away-from-zero integer when that integer fits in
u32: the cast neither saturates nor truncates a fractional part. -/
theorem f32toU32_round_val (q : Q) (hq : 0 ≤ q.num)
    (hfit : (roundHalfAwayQ q).toNat < 2 ^ 32) :
    f32toU32 (F32.rnd (F32.val q)) = (roundHalfAwayQ q).toNat := by
  have hble : Q.ble ⟨0, 1⟩ q = true := by
    simp only [Q.ble, decide_eq_true_eq]
    simpa using hq
  have hnn : 0 ≤ roundHalfAwayQ q := by
    unfold roundHalfAwayQ
    rw [if_pos hble]
    have h2 : 0 ≤ (Q.add q ⟨1, 2⟩).num := by
      simp only [Q.add]
      omega
    exact Int.fdiv_nonneg h2 (Int.natCast_nonneg _)
  show f32toU32 (F32.val (Q.ofInt (roundHalfAwayQ q))) = (roundHalfAwayQ q).toNat
  unfold f32toU32 Q.ofInt
  by_cases hz : roundHalfAwayQ q ≤ 0
  · have h0 : roundHalfAwayQ q = 0 := le_antisymm hz hnn
    rw [h0]
    simp [Q.ble]
  · have hbf : Q.ble ⟨roundHalfAwayQ q, 1⟩ ⟨0, 1⟩ = false := by
      simp only [Q.ble, decide_eq_false_iff_not]
      simpa using hz
    simp only [hbf, Bool.false_eq_true, if_false]
    have hfl : Q.floor ⟨roundHalfAwayQ q, 1⟩ = roundHalfAwayQ q := by
      simp [Q.floor, Int.fdiv_one]
    rw [hfl]
    exact Nat.min_eq_left (by omega)

/-- C3: the destination dimensions of get_output_size follow the claimed
formulas whenever the source height is positive and the results fit in
u32: both dimensions given yield their products with dpr; a single given
dimension infers the other from the f32 aspect ratio (the f32 quotient of
the source dimensions) by the floating quotient or product rounded half
away from zero, both multiplied by dpr; no given dimension yields the
source dimensions multiplied by dpr.  The hypotheses naming q pin the
exact value of the floating quotient or product, and roundHalfAwayQ is
round-half-away-from-zero on that exact value. -/
theorem c3_output_size_formulas (sw sh dpr : Nat) (_hsh : 0 < sh) (hdpr : 0 < dpr) :
    (∀ w h, w * dpr < 2 ^ 32 → h * dpr < 2 ^ 32 →
      get_output_size (sw, sh) (some w, some h) dpr = (w * dpr, h * dpr))
    ∧ (∀ w q, (f32ofU32 w).div ((f32ofU32 sw).div (f32ofU32 sh)) = F32.val q →
        0 ≤ q.num → (roundHalfAwayQ q).toNat * dpr < 2 ^ 32 → w * dpr < 2 ^ 32 →
        get_output_size (sw, sh) (some w, none) dpr
          = (w * dpr, (roundHalfAwayQ q).toNat * dpr))
    ∧ (∀ h q, (f32ofU32 h).mul ((f32ofU32 sw).div (f32ofU32 sh)) = F32.val q →
        0 ≤ q.num → (roundHalfAwayQ q).toNat * dpr < 2 ^ 32 → h * dpr < 2 ^ 32 →
        get_output_size (sw, sh) (none, some h) dpr
          = ((roundHalfAwayQ q).toNat * dpr, h * dpr))
    ∧ (sw * dpr < 2 ^ 32 → sh * dpr < 2 ^ 32 →
        get_output_size (sw, sh) (none, none) dpr = (sw * dpr, sh * dpr)) := by
  refine ⟨fun w h hw hh => ?_, fun w q hdiv hq hfit hw => ?_,
    fun h q hmul hq hfit hh => ?_, fun hw hh => ?_⟩
  · simp only [get_output_size]
    rw [Nat.mod_eq_of_lt hw, Nat.mod_eq_of_lt hh]
  · have hfit1 : (roundHalfAwayQ q).toNat < 2 ^ 32 :=
      lt_of_le_of_lt (le_mul_of_one_le_right (Nat.zero_le _) hdpr) hfit
    simp only [get_output_size]
    rw [hdiv, f32toU32_round_val q hq hfit1, Nat.mod_eq_of_lt hw, Nat.mod_eq_of_lt hfit]
  · have hfit1 : (roundHalfAwayQ q).toNat < 2 ^ 32 :=
      lt_of_le_of_lt (le_mul_of_one_le_right (Nat.zero_le _) hdpr) hfit
    simp only [get_output_size]
    rw [hmul, f32toU32_round_val q hq hfit1, Nat.mod_eq_of_lt hh, Nat.mod_eq_of_lt hfit]
  · simp only [get_output_size]
    rw [Nat.mod_eq_of_lt hw, Nat.mod_eq_of_lt hh]

/-- C3 witness: the spec scenario of an 800 by 600 source with requested
width 400 and dpr 1; the f32 quotient of 400 by the f32 aspect ratio is
exactly 300 (carried as the fraction 9830400 over 32768), and the
destination is 400 by 300. -/
theorem c3_output_size_formulas_witness :
    0 < 600 ∧ 0 < 1
    ∧ get_output_size (800, 600) (some 400, none) 1 = (400, 300) := by
  refine ⟨by decide, by decide, ?_⟩
  have h := (c3_output_size_formulas 800 600 1 (by decide) (by decide)).2.1 400
    ⟨9830400, 32768⟩ (by decide) (by decide) (by decide) (by decide)
  exact h.trans (by decide)
